import Mathlib

/-!
Verification of the project-deletion cascade of
`services/orchest-api/app/app/apis/namespace_projects.py`.

The metadata store is modelled as lists of rows; each Unit of Work store
phase is a function `DB → DB × List InfraCall`, where the returned list is
the collateral (side-effect) work that the unit enqueues, in enqueue order.
The child units (`AbortPipelineRun`, `StopInteractiveSession`, `DeleteJob`,
`DeleteProjectEnvironmentImages`) and the `TwoPhaseExecutor` live in modules
that are not part of the analysed source; they are modelled from the spec,
as marked in their doc comments.  `DeleteProject` and the HTTP handler are
translated from the source file directly.
-/

/-- Row of the `InteractivePipelineRun` model: an interactive pipeline run
with its status string (`"PENDING"`, `"STARTED"`, `"SUCCESS"`, ...). -/
structure InteractivePipelineRun where
  run_uuid : String
  project_uuid : String
  status : String
  deriving DecidableEq

/-- Row of the `InteractiveSession` model, keyed by (project, pipeline). -/
structure InteractiveSession where
  project_uuid : String
  pipeline_uuid : String
  deriving DecidableEq

/-- Row of the `Job` model. -/
structure Job where
  job_uuid : String
  project_uuid : String
  deriving DecidableEq

/-- Row of the environment-image model, associated to a project. -/
structure EnvironmentImage where
  project_uuid : String
  environment_uuid : String
  deriving DecidableEq

/-- The metadata store.  The orchest-api has no `Project` model (stated in
the module docstring of `namespace_projects.py`), so there is no project
table here: a project exists only through the rows that reference its
uuid. -/
structure DB where
  interactive_runs : List InteractivePipelineRun
  sessions : List InteractiveSession
  jobs : List Job
  images : List EnvironmentImage
  deriving DecidableEq

/-- An infrastructure call issued by the side-effect (collateral) phase of
some Unit of Work: terminate a run workload, tear down a session, cancel a
scheduled job, delete the built images of a project. -/
inductive InfraCall where
  | abort (run_uuid : String)
  | stop (project_uuid pipeline_uuid : String)
  | cancel (job_uuid : String)
  | delete_images (project_uuid : String)
  deriving DecidableEq

/-- Modelled from the spec: the store-phase body of `AbortPipelineRun`
(namespace_runs.py is not under the analysed source): the store phase
"marks the run ABORTED"; uuids other than the target are untouched. -/
def markRun (run_uuid : String) (r : InteractivePipelineRun) :
    InteractivePipelineRun :=
  if r.run_uuid == run_uuid then { r with status := "ABORTED" } else r

/-- Modelled from the spec: `AbortPipelineRun.transaction(run_uuid)`
(namespace_runs.py is not under the analysed source).  Store phase marks
the run ABORTED; the enqueued collateral signals the execution backend to
terminate the workload of the run. -/
def AbortPipelineRun_transaction (run_uuid : String) (db : DB) :
    DB × List InfraCall :=
  ({ db with interactive_runs := db.interactive_runs.map (markRun run_uuid) },
   [InfraCall.abort run_uuid])

/-- Modelled from the spec:
`StopInteractiveSession.transaction(project_uuid, pipeline_uuid)`
(namespace_sessions.py is not under the analysed source).  Store phase
removes the session record of the (project, pipeline) pair; the enqueued
collateral tears down the live compute context. -/
def StopInteractiveSession_transaction (project_uuid pipeline_uuid : String)
    (db : DB) : DB × List InfraCall :=
  ({ db with sessions := db.sessions.filter (fun s =>
      !(s.project_uuid == project_uuid && s.pipeline_uuid == pipeline_uuid)) },
   [InfraCall.stop project_uuid pipeline_uuid])

/-- Modelled from the spec: `DeleteJob.transaction(job_uuid)`
(namespace_jobs.py is not under the analysed source).  Store phase removes
the scheduling metadata of the job (the `Job` row; job-scoped runs are not
modelled since no claim mentions them); the enqueued collateral cancels
outstanding scheduled invocations.  Note: `DeleteProject._transaction`
only constructs this unit and never invokes this transaction. -/
def DeleteJob_transaction (job_uuid : String) (db : DB) :
    DB × List InfraCall :=
  ({ db with jobs := db.jobs.filter (fun j => j.job_uuid != job_uuid) },
   [InfraCall.cancel job_uuid])

/-- Modelled from the spec:
`DeleteProjectEnvironmentImages.transaction(project_uuid)`
(namespace_environment_images.py is not under the analysed source).  Store
phase removes the image metadata rows of the project; the enqueued
collateral instructs the registry backend to delete the image artifacts. -/
def DeleteProjectEnvironmentImages_transaction (project_uuid : String)
    (db : DB) : DB × List InfraCall :=
  ({ db with images := db.images.filter (fun i =>
      i.project_uuid != project_uuid) },
   [InfraCall.delete_images project_uuid])

/-- Selection predicate of lines 54-58 of the source: an interactive run of
the project whose status is in `{PENDING, STARTED}`. -/
def isLiveRun (project_uuid : String) (r : InteractivePipelineRun) : Bool :=
  r.project_uuid == project_uuid &&
    (r.status == "PENDING" || r.status == "STARTED")

/-- The query of lines 54-58: all interactive runs of the project with
status in `{PENDING, STARTED}`. -/
def liveInteractiveRuns (project_uuid : String) (db : DB) :
    List InteractivePipelineRun :=
  db.interactive_runs.filter (isLiveRun project_uuid)

/-- Body of the loop of lines 59-63: run the `AbortPipelineRun` transaction
on the run, then `db.session.delete(run)` removes the run row (its
per-step and image-mapping child rows cascade in the store and are not
modelled). -/
def abortAndDeleteRun (acc : DB × List InfraCall)
    (run : InteractivePipelineRun) : DB × List InfraCall :=
  let t := AbortPipelineRun_transaction run.run_uuid acc.1
  ({ t.1 with interactive_runs := t.1.interactive_runs.filter (fun r =>
      r.run_uuid != run.run_uuid) },
   acc.2 ++ t.2)

/-- The query of lines 67-77: the distinct
(`project_uuid`, `pipeline_uuid`) pairs of the sessions of the project. -/
def sessionPairs (project_uuid : String) (db : DB) :
    List (String × String) :=
  ((db.sessions.filter (fun s => s.project_uuid == project_uuid)).map
    (fun s => (s.project_uuid, s.pipeline_uuid))).dedup

/-- Body of the loop of lines 78-82: run the `StopInteractiveSession`
transaction at the argument `project_uuid` and the pipeline uuid of the
pair. -/
def stopSessionStep (project_uuid : String) (acc : DB × List InfraCall)
    (pr : String × String) : DB × List InfraCall :=
  let t := StopInteractiveSession_transaction project_uuid pr.2 acc.1
  (t.1, acc.2 ++ t.2)

/-- `DeleteProject._transaction` (lines 51-97 of the source), translated
statement by statement.  Returns the mutated store together with the
collateral queue accumulated, in enqueue order, by the child units run
inside it.  Lines 86-94 select the jobs of the project and then execute
`DeleteJob(job.job_uuid)`: this only constructs the unit (binding the
job uuid where the executor handle belongs) and never invokes its
transaction, so the loop mutates nothing and enqueues nothing. -/
def DeleteProject_transaction (project_uuid : String) (db : DB) :
    DB × List InfraCall :=
  let s1 := (liveInteractiveRuns project_uuid db).foldl abortAndDeleteRun
    (db, [])
  let pairs := ((s1.1.sessions.filter (fun s =>
      s.project_uuid == project_uuid)).map
    (fun s => (s.project_uuid, s.pipeline_uuid))).dedup
  let s2 := pairs.foldl (stopSessionStep project_uuid) s1
  let jobs := (s2.1.jobs.filter (fun j =>
      j.project_uuid == project_uuid)).map (fun j => j.job_uuid)
  let s3 := jobs.foldl (fun acc _job => acc) s2
  let t4 := DeleteProjectEnvironmentImages_transaction project_uuid s3.1
  (t4.1, s3.2 ++ t4.2)

/-- `DeleteProject._collateral` (lines 99-100 of the source): `pass` — it
issues no infrastructure call. -/
def DeleteProject_collateral : List InfraCall := []

/-- Modelled from the spec: `TwoPhaseFunction.transaction` runs the store
phase immediately and then enqueues the side-effect phase of the unit.
The child units inside `DeleteProject._transaction` already enqueued
theirs; the own (empty) entry of `DeleteProject` is appended last. -/
def DeleteProject_run (project_uuid : String) (db : DB) :
    DB × List InfraCall :=
  let t := DeleteProject_transaction project_uuid db
  (t.1, t.2 ++ DeleteProject_collateral)

/-- The world visible around one executor scope: the committed store plus
the log of infrastructure calls actually issued so far. -/
structure World where
  db : DB
  issued : List InfraCall
  deriving DecidableEq

/-- Modelled from the spec: `TwoPhaseExecutor`
(_orchest/internals/two_phase_executor.py is not under the analysed
source).  It runs a fallible store-mutation function inside one store
transaction: on an error the transaction is rolled back (the committed
store is unchanged) and the collateral queue is discarded (nothing is
issued); on success the transaction commits and the queued collateral
actions are executed in enqueue order. -/
def TwoPhaseExecutor_run (tx : DB → Except String (DB × List InfraCall))
    (w : World) : Except String Unit × World :=
  match tx w.db with
  | .error e => (.error e, w)
  | .ok t => (.ok (), ⟨t.1, w.issued ++ t.2⟩)

/-- Observable events of one executor scope, in temporal order. -/
inductive Event where
  | commit
  | rollback
  | call (c : InfraCall)
  deriving DecidableEq

/-- Modelled from the spec: the temporal trace of one executor scope — on
failure a rollback and nothing else (the queue is discarded); on success
the commit followed by the queued collateral actions in enqueue order. -/
def TwoPhaseExecutor_trace (tx : DB → Except String (DB × List InfraCall))
    (db : DB) : List Event :=
  match tx db with
  | .error _ => [Event.rollback]
  | .ok t => Event.commit :: t.2.map Event.call

/-- The store-mutation function the endpoint hands to the executor:
`DeleteProject(tpe).transaction(project_uuid)`.  The translated cascade
itself is total; exceptions originate in the unmodelled store layer. -/
def deleteProjectTx (project_uuid : String) (db : DB) :
    Except String (DB × List InfraCall) :=
  .ok (DeleteProject_run project_uuid db)

/-- `Project.delete` (lines 26-39 of the source): run the two-phase
executor; if it raises, answer `({"message": str(e)}, 500)`; otherwise
answer `({"message": "Project deletion was successful."}, 200)`.  The
handler is generic in the fallible store-mutation function, since the
exceptions of the real system originate in the store layer, which is not
modelled; `deleteProjectTx` is the concrete instantiation. -/
def Project_delete (tx : DB → Except String (DB × List InfraCall))
    (w : World) : (String × Nat) × World :=
  match TwoPhaseExecutor_run tx w with
  | (.error e, w2) => ((e, 500), w2)
  | (.ok _, w2) => (("Project deletion was successful.", 200), w2)

/-- Predicate picking the stop-session calls out of a collateral queue. -/
def isStopCall : InfraCall → Bool
  | .stop _ _ => true
  | _ => false

/-- Predicate picking the abort-run calls out of a collateral queue. -/
def isAbortCall : InfraCall → Bool
  | .abort _ => true
  | _ => false

/-- Concrete store: project `p1` owns one job `j1` and nothing else. -/
def dbJobOnly : DB := ⟨[], [], [⟨"j1", "p1"⟩], []⟩

/-- Concrete store: project `p1` owns a finished (`SUCCESS`) interactive
run, one job and one image. -/
def dbFinished : DB :=
  ⟨[⟨"r-success", "p1", "SUCCESS"⟩], [], [⟨"j1", "p1"⟩], [⟨"p1", "env1"⟩]⟩

/-- Concrete store: project `p1` owns one STARTED run, one session, one
job and one image. -/
def dbFull : DB :=
  ⟨[⟨"r1", "p1", "STARTED"⟩], [⟨"p1", "pl1"⟩], [⟨"j1", "p1"⟩],
   [⟨"p1", "env1"⟩]⟩

/-- Concrete store: one PENDING run and one SUCCESS run of `p1`. -/
def dbMixed : DB :=
  ⟨[⟨"r1", "p1", "PENDING"⟩, ⟨"r2", "p1", "SUCCESS"⟩], [], [], []⟩

/-- A store-mutation function failing the way a referential error would. -/
def failingTx : DB → Except String (DB × List InfraCall) :=
  fun _ => .error "referential error"

/-! ### Characterization lemmas -/

theorem foldl_ignore {α β : Type} (l : List β) (a : α) :
    l.foldl (fun acc _job => acc) a = a := by
  induction l generalizing a with
  | nil => rfl
  | cons b l ih => exact ih a

/-- `markRun` never changes the uuid of a row. -/
theorem markRun_run_uuid (u : String) (r : InteractivePipelineRun) :
    (markRun u r).run_uuid = r.run_uuid := by
  unfold markRun; split <;> rfl

/-- Marking the target run ABORTED and then deleting every row carrying its
uuid is, row for row, the same as just deleting those rows. -/
theorem filter_map_markRun (u : String) (l : List InteractivePipelineRun) :
    (l.map (markRun u)).filter (fun x => x.run_uuid != u)
      = l.filter (fun x => x.run_uuid != u) := by
  induction l with
  | nil => rfl
  | cons a l ih =>
    by_cases h : a.run_uuid = u
    · have hm : (markRun u a).run_uuid = u := by rw [markRun_run_uuid]; exact h
      simp [List.filter_cons, hm, h, ih]
    · have hmark : markRun u a = a := by
        unfold markRun
        simp [h]
      simp [List.filter_cons, hmark, h, ih]


/-- Net effect of the abort-and-delete loop of lines 59-63, folded over an
arbitrary list of selected runs: every row whose uuid occurs among the
selected runs is removed, every other row (and every other table) is left
verbatim, and one abort call per selected run is enqueued, in order. -/
theorem foldl_abortAndDeleteRun (rs : List InteractivePipelineRun) :
    ∀ acc : DB × List InfraCall,
      (rs.foldl abortAndDeleteRun acc).1.interactive_runs
          = acc.1.interactive_runs.filter (fun r =>
              !(rs.any (fun x => r.run_uuid == x.run_uuid)))
        ∧ (rs.foldl abortAndDeleteRun acc).1.sessions = acc.1.sessions
        ∧ (rs.foldl abortAndDeleteRun acc).1.jobs = acc.1.jobs
        ∧ (rs.foldl abortAndDeleteRun acc).1.images = acc.1.images
        ∧ (rs.foldl abortAndDeleteRun acc).2
            = acc.2 ++ rs.map (fun r => InfraCall.abort r.run_uuid) := by
  induction rs with
  | nil => intro acc; simp
  | cons r rs ih =>
    intro acc
    have hstep : abortAndDeleteRun acc r
        = ({ acc.1 with interactive_runs :=
              acc.1.interactive_runs.filter (fun x =>
                x.run_uuid != r.run_uuid) },
           acc.2 ++ [InfraCall.abort r.run_uuid]) := by
      unfold abortAndDeleteRun AbortPipelineRun_transaction
      simp [filter_map_markRun]
    rw [List.foldl_cons, hstep]
    obtain ⟨h1, h2, h3, h4, h5⟩ := ih
      ({ acc.1 with interactive_runs :=
          acc.1.interactive_runs.filter (fun x =>
            x.run_uuid != r.run_uuid) },
       acc.2 ++ [InfraCall.abort r.run_uuid])
    refine ⟨?_, h2, h3, h4, ?_⟩
    · rw [h1]
      simp only [List.filter_filter]
      apply List.filter_congr
      intro x _
      simp [List.any_cons, Bool.not_or, Bool.and_comm, bne]
    · rw [h5]; simp

/-- Net effect of the stop-session loop of lines 78-82, folded over an
arbitrary list of pairs: the run, job and image tables are untouched and
one stop call per pair is enqueued, in order. -/
theorem foldl_stopSessionStep (p : String) (ps : List (String × String)) :
    ∀ acc : DB × List InfraCall,
      (ps.foldl (stopSessionStep p) acc).1.interactive_runs
          = acc.1.interactive_runs
        ∧ (ps.foldl (stopSessionStep p) acc).1.jobs = acc.1.jobs
        ∧ (ps.foldl (stopSessionStep p) acc).1.images = acc.1.images
        ∧ (ps.foldl (stopSessionStep p) acc).2
            = acc.2 ++ ps.map (fun pr => InfraCall.stop p pr.2) := by
  induction ps with
  | nil => intro acc; simp
  | cons pr ps ih =>
    intro acc
    have hstep : stopSessionStep p acc pr
        = ({ acc.1 with sessions := acc.1.sessions.filter (fun s =>
              !(s.project_uuid == p && s.pipeline_uuid == pr.2)) },
           acc.2 ++ [InfraCall.stop p pr.2]) := by
      unfold stopSessionStep StopInteractiveSession_transaction
      simp
    rw [List.foldl_cons, hstep]
    obtain ⟨h1, h2, h3, h4⟩ := ih
      ({ acc.1 with sessions := acc.1.sessions.filter (fun s =>
          !(s.project_uuid == p && s.pipeline_uuid == pr.2)) },
       acc.2 ++ [InfraCall.stop p pr.2])
    refine ⟨h1, h2, h3, ?_⟩
    rw [h4]; simp

/-- Full characterization of `DeleteProject._transaction`: the run rows
whose uuid occurs among the selected live runs are gone, the session and
image tables are filtered, the job table is untouched (the `DeleteJob`
store phase never runs), and the collateral queue holds the abort calls,
then the stop calls, then the image-deletion call, in enqueue order. -/
theorem DeleteProject_transaction_spec (p : String) (db : DB) :
    (DeleteProject_transaction p db).1.interactive_runs
        = db.interactive_runs.filter (fun r =>
            !((liveInteractiveRuns p db).any (fun x =>
              r.run_uuid == x.run_uuid)))
      ∧ (DeleteProject_transaction p db).1.jobs = db.jobs
      ∧ (DeleteProject_transaction p db).1.images
          = db.images.filter (fun i => i.project_uuid != p)
      ∧ (DeleteProject_transaction p db).2
          = (liveInteractiveRuns p db).map (fun r =>
              InfraCall.abort r.run_uuid)
            ++ (sessionPairs p db).map (fun pr => InfraCall.stop p pr.2)
            ++ [InfraCall.delete_images p] := by
  obtain ⟨a1, a2, a3, a4, a5⟩ :=
    foldl_abortAndDeleteRun (liveInteractiveRuns p db) (db, [])
  dsimp only at a1 a2 a3 a4 a5
  simp only [DeleteProject_transaction, foldl_ignore]
  rw [a2]
  obtain ⟨b1, b2, b3, b4⟩ :=
    foldl_stopSessionStep p
      (((db.sessions.filter (fun s => s.project_uuid == p)).map
        (fun s => (s.project_uuid, s.pipeline_uuid))).dedup)
      ((liveInteractiveRuns p db).foldl abortAndDeleteRun (db, []))
  simp only [DeleteProjectEnvironmentImages_transaction]
  rw [b1, b2, b3, b4, a1, a3, a4, a5]
  refine ⟨rfl, rfl, rfl, ?_⟩
  simp [sessionPairs]

/-- Under uuid uniqueness of the run table, a row matches the uuid of some
selected live run exactly when it is itself live. -/
theorem any_live_eq (p : String) (db : DB)
    (h : (db.interactive_runs.map (fun x => x.run_uuid)).Nodup)
    (r : InteractivePipelineRun) (hr : r ∈ db.interactive_runs) :
    ((liveInteractiveRuns p db).any (fun x => r.run_uuid == x.run_uuid))
      = isLiveRun p r := by
  cases hlive : isLiveRun p r with
  | true =>
    apply List.any_eq_true.mpr
    refine ⟨r, ?_, by simp⟩
    unfold liveInteractiveRuns
    exact List.mem_filter.mpr ⟨hr, hlive⟩
  | false =>
    apply Bool.eq_false_iff.mpr
    intro hany
    obtain ⟨x, hxmem, hxeq⟩ := List.any_eq_true.mp hany
    obtain ⟨hxruns, hxlive⟩ := List.mem_filter.mp hxmem
    have hx : r = x :=
      List.inj_on_of_nodup_map h hr hxruns (by simpa using hxeq)
    rw [hx, hxlive] at hlive
    exact Bool.true_eq_false.mp hlive

/-! ### Claim theorems -/

/-- C1: the claim fails on the code.  Line 94 of the source reads
`DeleteJob(job.job_uuid)`: the unit is constructed (the job uuid sits in
the executor-handle position) and `.transaction(...)` is never invoked, so
the Delete-Job store-mutation phase never runs for any job.  On a store
where project `p1` owns the single job `j1`, the project-deletion store
phase leaves the job row in place and enqueues no job-related collateral,
whereas actually running the Delete-Job unit would have removed the row
and enqueued the cancel call. -/
theorem C1_deleteJob_store_phase_never_runs :
    (DeleteProject_transaction "p1" dbJobOnly).1.jobs = [⟨"j1", "p1"⟩]
      ∧ (DeleteProject_transaction "p1" dbJobOnly).2
          = [InfraCall.delete_images "p1"]
      ∧ (DeleteJob_transaction "j1" dbJobOnly).1.jobs = []
      ∧ (DeleteJob_transaction "j1" dbJobOnly).2
          = [InfraCall.cancel "j1"] := by
  decide

/-- C2: the claim fails on the code.  On a store where project `p1` owns a
SUCCESS run, a job and an image, the deletion reports success (HTTP 200),
yet the job row and the finished-run row referencing `p1` are still in the
committed store; moreover the orchest-api has no Project model at all, so
no project record is removed as a final step. -/
theorem C2_completeness_fails :
    Project_delete (deleteProjectTx "p1") ⟨dbFinished, []⟩
      = (("Project deletion was successful.", 200),
         ⟨⟨[⟨"r-success", "p1", "SUCCESS"⟩], [], [⟨"j1", "p1"⟩], []⟩,
          [InfraCall.delete_images "p1"]⟩) := by
  decide

/-- C3: if any store-mutation phase of the scope raises, the executor
rolls the metadata transaction back and discards the collateral queue:
the committed store and the log of issued infrastructure calls are
exactly as before the call, and the observable trace is a bare
rollback with no collateral event. -/
theorem C3_rollback_on_error
    (tx : DB → Except String (DB × List InfraCall)) (w : World)
    (e : String) (h : tx w.db = .error e) :
    TwoPhaseExecutor_run tx w = (.error e, w)
      ∧ TwoPhaseExecutor_trace tx w.db = [Event.rollback] := by
  constructor
  · unfold TwoPhaseExecutor_run; rw [h]
  · unfold TwoPhaseExecutor_trace; rw [h]

theorem C3_rollback_on_error_witness :
    failingTx dbFull = .error "referential error"
      ∧ (TwoPhaseExecutor_run failingTx ⟨dbFull, []⟩
            = (.error "referential error", ⟨dbFull, []⟩)
        ∧ TwoPhaseExecutor_trace failingTx dbFull = [Event.rollback]) :=
  ⟨rfl, C3_rollback_on_error failingTx ⟨dbFull, []⟩ "referential error" rfl⟩

/-- C4: for every project deletion the observable trace of the scope is
the commit followed by precisely the queued collateral actions, in
enqueue order — no collateral action occurs before the commit. -/
theorem C4_collateral_after_commit_in_order (p : String) (db : DB) :
    TwoPhaseExecutor_trace (deleteProjectTx p) db
      = Event.commit :: (DeleteProject_run p db).2.map Event.call := rfl

/-- C5: assuming run uuids are unique (the primary-key property of the
table), the store phase removes exactly the interactive runs of the
project whose status is PENDING or STARTED — the surviving run table is
the original one with precisely the selected rows gone — and the abort
calls in the collateral queue are exactly one Abort-Run per selected run,
in selection order; the record deletion happens in the same store
phase, right after each Abort-Run transaction. -/
theorem C5_live_runs_aborted_then_deleted (p : String) (db : DB)
    (h : (db.interactive_runs.map (fun x => x.run_uuid)).Nodup) :
    (DeleteProject_transaction p db).1.interactive_runs
        = db.interactive_runs.filter (fun r => !(isLiveRun p r))
      ∧ (DeleteProject_transaction p db).2.filter isAbortCall
          = (liveInteractiveRuns p db).map (fun r =>
              InfraCall.abort r.run_uuid) := by
  obtain ⟨h1, -, -, h4⟩ := DeleteProject_transaction_spec p db
  constructor
  · rw [h1]
    apply List.filter_congr
    intro r hr
    rw [any_live_eq p db h r hr]
  · rw [h4]
    simp [List.filter_append, List.filter_map, isAbortCall,
      Function.comp_def]

theorem C5_live_runs_aborted_then_deleted_witness :
    ((dbMixed.interactive_runs.map (fun x => x.run_uuid)).Nodup)
      ∧ ((DeleteProject_transaction "p1" dbMixed).1.interactive_runs
            = dbMixed.interactive_runs.filter (fun r => !(isLiveRun "p1" r))
        ∧ (DeleteProject_transaction "p1" dbMixed).2.filter isAbortCall
            = (liveInteractiveRuns "p1" dbMixed).map (fun r =>
                InfraCall.abort r.run_uuid)) :=
  ⟨by decide, C5_live_runs_aborted_then_deleted "p1" dbMixed (by decide)⟩

/-- C6: the sessions step computes the distinct (project, pipeline) pairs
of the sessions of the project — each pair listed once, and a pair listed
exactly when some session row of the project realizes it — and the stop
calls in the collateral queue are exactly one Stop-Session per listed
pair, in order. -/
theorem C6_sessions_stopped_once_per_pair (p : String) (db : DB) :
    (DeleteProject_transaction p db).2.filter isStopCall
        = (sessionPairs p db).map (fun pr => InfraCall.stop p pr.2)
      ∧ (sessionPairs p db).Nodup
      ∧ ∀ pr : String × String,
          pr ∈ sessionPairs p db
            ↔ ∃ s ∈ db.sessions, s.project_uuid = p
                ∧ pr = (s.project_uuid, s.pipeline_uuid) := by
  obtain ⟨-, -, -, h4⟩ := DeleteProject_transaction_spec p db
  refine ⟨?_, List.nodup_dedup _, ?_⟩
  · rw [h4]
    simp [List.filter_append, List.filter_map, isStopCall,
      Function.comp_def]
  · intro pr
    simp only [sessionPairs, List.mem_dedup, List.mem_map,
      List.mem_filter, beq_iff_eq]
    constructor
    · rintro ⟨s, ⟨hs, hp⟩, hpr⟩
      exact ⟨s, hs, hp, hpr.symm⟩
    · rintro ⟨s, hs, hp, hpr⟩
      exact ⟨s, ⟨hs, hp⟩, hpr.symm⟩

/-- C7: the claim, as stated, is false.  On a store where project `p1`
owns one STARTED run, one session, one job and one image, the store phase
leaves the job row untouched — no job-deletion phase runs between the
session and image phases, as the collateral queue (abort, stop, image
deletion and nothing else) also shows — and no project-record removal
step exists. -/
theorem C7_counterexample :
    (DeleteProject_transaction "p1" dbFull).1.jobs = [⟨"j1", "p1"⟩]
      ∧ (DeleteProject_transaction "p1" dbFull).2
          = [InfraCall.abort "r1", InfraCall.stop "p1" "pl1",
             InfraCall.delete_images "p1"] := by
  decide

/-- C7 (amended): the store-mutation phases execute in the fixed order
abort-and-delete live interactive runs, then stop interactive sessions,
then iterate the jobs without running the Delete-Job store phase (the job
table is untouched), then delete the environment images; there is no
final project-record step (the orchest-api store has no Project table).
The collateral queue materializes that phase order. -/
theorem C7_phase_order (p : String) (db : DB) :
    (DeleteProject_transaction p db).2
        = (liveInteractiveRuns p db).map (fun r => InfraCall.abort r.run_uuid)
          ++ (sessionPairs p db).map (fun pr => InfraCall.stop p pr.2)
          ++ [InfraCall.delete_images p]
      ∧ (DeleteProject_transaction p db).1.jobs = db.jobs := by
  obtain ⟨-, h2, -, h4⟩ := DeleteProject_transaction_spec p db
  exact ⟨h4, h2⟩

/-- C8: the handler never propagates an exception: it is a total function
answering exactly one of two responses — on an executor error `e` it
answers the string of the exception with status 500 and the world is
untouched; on success it answers the fixed success message with status
200 over the committed world. -/
theorem C8_handler_maps_outcome_to_response
    (tx : DB → Except String (DB × List InfraCall)) (w : World) :
    (∀ e, tx w.db = .error e → Project_delete tx w = ((e, 500), w))
      ∧ (∀ t, tx w.db = .ok t
          → Project_delete tx w
              = (("Project deletion was successful.", 200),
                 ⟨t.1, w.issued ++ t.2⟩)) := by
  constructor
  · intro e he
    unfold Project_delete TwoPhaseExecutor_run
    rw [he]
  · intro t ht
    unfold Project_delete TwoPhaseExecutor_run
    rw [ht]

theorem C8_handler_maps_outcome_to_response_witness :
    Project_delete failingTx ⟨dbJobOnly, []⟩
        = (("referential error", 500), ⟨dbJobOnly, []⟩)
      ∧ Project_delete (deleteProjectTx "p1") ⟨dbJobOnly, []⟩
          = (("Project deletion was successful.", 200),
             ⟨(DeleteProject_run "p1" dbJobOnly).1,
              [] ++ (DeleteProject_run "p1" dbJobOnly).2⟩) :=
  ⟨(C8_handler_maps_outcome_to_response failingTx ⟨dbJobOnly, []⟩).1
      "referential error" rfl,
   (C8_handler_maps_outcome_to_response (deleteProjectTx "p1")
      ⟨dbJobOnly, []⟩).2 (DeleteProject_run "p1" dbJobOnly) rfl⟩

/-- C9: frame property — an interactive run whose status is neither
PENDING nor STARTED survives the project-deletion store phase verbatim
(assuming run uuids are unique): its unchanged row is still in the run
table afterwards. -/
theorem C9_finished_runs_left_unchanged (p : String) (db : DB)
    (r : InteractivePipelineRun)
    (h : (db.interactive_runs.map (fun x => x.run_uuid)).Nodup)
    (hr : r ∈ db.interactive_runs)
    (hp : r.status ≠ "PENDING") (hs : r.status ≠ "STARTED") :
    r ∈ (DeleteProject_transaction p db).1.interactive_runs := by
  obtain ⟨h1, -, -, -⟩ := DeleteProject_transaction_spec p db
  rw [h1]
  refine List.mem_filter.mpr ⟨hr, ?_⟩
  rw [any_live_eq p db h r hr]
  simp [isLiveRun, hp, hs]

theorem C9_finished_runs_left_unchanged_witness :
    ((dbMixed.interactive_runs.map (fun x => x.run_uuid)).Nodup
      ∧ (⟨"r2", "p1", "SUCCESS"⟩ : InteractivePipelineRun)
          ∈ dbMixed.interactive_runs
      ∧ (⟨"r2", "p1", "SUCCESS"⟩ : InteractivePipelineRun).status ≠ "PENDING"
      ∧ (⟨"r2", "p1", "SUCCESS"⟩ : InteractivePipelineRun).status ≠ "STARTED")
      ∧ (⟨"r2", "p1", "SUCCESS"⟩ : InteractivePipelineRun)
          ∈ (DeleteProject_transaction "p1" dbMixed).1.interactive_runs :=
  ⟨by decide,
   C9_finished_runs_left_unchanged "p1" dbMixed ⟨"r2", "p1", "SUCCESS"⟩
     (by decide) (by decide) (by decide) (by decide)⟩

/-- C10: the own collateral phase of the top-level DeleteProject unit is
`pass`: it issues no infrastructure call, and the full collateral queue of
a project deletion is exactly what the child units enqueued during the
store-mutation phase. -/
theorem C10_top_level_collateral_noop :
    DeleteProject_collateral = []
      ∧ ∀ (p : String) (db : DB),
          (DeleteProject_run p db).2 = (DeleteProject_transaction p db).2 := by
  refine ⟨rfl, fun p db => ?_⟩
  unfold DeleteProject_run DeleteProject_collateral
  simp
